import Mathlib

/-!
Verification of the porter connection-and-routing core.

The definitions below are a shallow embedding of the TypeScript sources:
`src/managers/AgentManager.ts` (endpoint registry), `src/managers/MessageHandler.ts`
(message router), `src/managers/ConnectionManager.ts` (handshake protocol and the
endpoint-side `MessageQueue`), and `src/managers/AgentConnectionManager.ts`
(reconnection manager).  JavaScript `Map`s become insertion-ordered association
lists, `uuidv4()` / `Date.now()` become explicit parameters, and exceptions
become explicit error results.  JavaScript truthiness (`x || d`, `x ? a : b`)
is modelled by the `jsOr*`/`truthy*` helpers where the source relies on it.
-/

namespace Porter

/-- In `porter.model.ts`, `PorterContext` is a string enum; `identifyConnectionSource`
casts arbitrary page-type strings to it unchecked, so we model contexts as strings. -/
abbrev Context := String

def Context.contentscript : Context := "contentscript"

def Context.unknown : Context := "unknown"

/-- Embeds `BrowserLocation` from `porter.model.ts`: context + tabId + frameId. -/
structure BrowserLocation where
  context : Context
  tabId : Int
  frameId : Int
deriving DecidableEq, Repr

/-- Embeds `AgentInfo` from `porter.model.ts`. -/
structure AgentInfo where
  id : String
  location : BrowserLocation
  createdAt : Int
  lastActiveAt : Int
deriving DecidableEq, Repr

/-- Embeds `Runtime.MessageSender`: the fields `identifyConnectionSource` reads.
`tab = some t` models a sender with a tab whose id is `t`. -/
structure Sender where
  tab : Option Int
  frameId : Option Int
  url : Option String
deriving DecidableEq, Repr

/-- Embeds `Runtime.Port`: the channel handle.  `pid` is an abstract identity used to
tell distinct port objects apart in the embedding. -/
structure Port where
  pid : Nat
  name : String
  sender : Option Sender
deriving DecidableEq, Repr

/-- Embeds `Agent` from `porter.model.ts`: optional port plus info. -/
structure Agent where
  port : Option Port
  info : AgentInfo
deriving DecidableEq, Repr

/-- JavaScript `x || d` for a possibly-undefined number `x`: `undefined` and `0`
are falsy, every other number (including negatives) is truthy. -/
def jsOrInt (x : Option Int) (d : Int) : Int :=
  match x with
  | none => d
  | some v => if v = 0 then d else v

/-- JavaScript `x || d` for a possibly-undefined string: `undefined` and `""` are falsy. -/
def jsOrStr (x : Option String) (d : String) : String :=
  match x with
  | none => d
  | some v => if v = "" then d else v

/-- Truthiness of a possibly-undefined number (`x ? a : b`). -/
def truthyInt (x : Option Int) : Bool :=
  match x with
  | none => false
  | some v => v != 0

/-- Truthiness of a possibly-undefined string. -/
def truthyStr (x : Option String) : Bool :=
  match x with
  | none => false
  | some v => v != ""

/-! ### Insertion-ordered maps

JavaScript `Map` iterates entries in insertion order; `set` on an existing key
updates the value in place.  We model it by an association list with these
operations. -/

def mapHas {β : Type} (m : List (String × β)) (k : String) : Bool :=
  m.any (fun p => p.1 == k)

def mapGet {β : Type} (m : List (String × β)) (k : String) : Option β :=
  (m.find? (fun p => p.1 == k)).map (·.2)

def mapSet {β : Type} (m : List (String × β)) (k : String) (v : β) : List (String × β) :=
  if mapHas m k then m.map (fun p => if p.1 == k then (k, v) else p)
  else m ++ [(k, v)]

def mapDelete {β : Type} (m : List (String × β)) (k : String) : List (String × β) :=
  m.filter (fun p => p.1 != k)

def mapKeys {β : Type} (m : List (String × β)) : List String :=
  m.map (·.1)

/-! ### `AgentManager` (endpoint registry) -/

/-- The two maps of `AgentManager`: `agents : Map<AgentId, Runtime.Port>` and
`agentsInfo : Map<AgentId, AgentInfo>`. -/
structure AgentManager where
  agents : List (String × Port)
  agentsInfo : List (String × AgentInfo)
deriving DecidableEq, Repr

def AgentManager.empty : AgentManager := ⟨[], []⟩

/-- Result of `identifyConnectionSource`: context plus optional coordinates. -/
structure ConnectionSource where
  context : Context
  tabId : Option Int
  frameId : Option Int
deriving DecidableEq, Repr

/-- The manifest-derived page paths read by `identifyConnectionSource`
(`""` models an absent manifest entry, matching the `|| ''` fallbacks). -/
structure Manifest where
  sidePanelPath : String
  optionsPage : String
  popupPage : String
  devtoolsPage : String
  newtabOverride : String
  bookmarksOverride : String
  historyOverride : String
deriving DecidableEq, Repr

/-- JavaScript `pat` substring test (`url.includes(pat)`). -/
def strContains (s pat : String) : Bool :=
  decide (pat.toList <:+: s.toList)

/-- Embeds `path.split('/').pop()`. -/
def lastPathComponent (s : String) : String :=
  (s.splitOn "/").getLastD ""

/-- Models the host URL parser `new URL(url).pathname` for well-formed URLs:
drop `scheme://host`, keep the path, strip query and fragment. -/
def urlPathname (url : String) : String :=
  let afterScheme :=
    match url.splitOn "://" with
    | [] => url
    | [s] => s
    | _ :: rest => String.intercalate "://" rest
  let path :=
    match afterScheme.splitOn "/" with
    | [] => ""
    | [_] => ""
    | _ :: rest => "/" ++ String.intercalate "/" rest
  ((path.splitOn "?").headD "").splitOn "#" |>.headD ""

/-- One matcher entry of the `pageMatchers` object: manifest path's filename,
or the default filename when the manifest entry is empty. -/
def pageMatcher (path dflt : String) : String :=
  if path != "" then lastPathComponent path else dflt

/-- The `pageMatchers` object, in its key order. -/
def pageMatchers (m : Manifest) : List (String × String) :=
  [ ("sidepanel", pageMatcher m.sidePanelPath "sidepanel.html"),
    ("options", pageMatcher m.optionsPage "options.html"),
    ("popup", pageMatcher m.popupPage "popup.html"),
    ("devtools", pageMatcher m.devtoolsPage "devtools.html"),
    ("newtab", pageMatcher m.newtabOverride "newtab.html"),
    ("bookmarks", pageMatcher m.bookmarksOverride "bookmarks.html"),
    ("history", pageMatcher m.historyOverride "history.html") ]

/-- Embeds `AgentManager.identifyConnectionSource`: classify the port's sender into a
context plus coordinates; `none` when the port has no sender. -/
def identifyConnectionSource (m : Manifest) (port : Port) : Option ConnectionSource :=
  match port.sender with
  | none => none
  | some sender =>
    if sender.tab.isSome ∧ truthyStr sender.url ∧
        ¬ strContains (sender.url.getD "") "extension://" then
      some { context := Context.contentscript,
             tabId := sender.tab,
             frameId := some (jsOrInt sender.frameId 0) }
    else if truthyStr sender.url ∧ strContains (sender.url.getD "") "extension://" then
      let filename := lastPathComponent (urlPathname (sender.url.getD ""))
      match (pageMatchers m).find? (fun p => p.2 == filename) with
      | some (pageType, _) =>
        some { context := pageType,
               tabId := some (jsOrInt sender.tab 0),
               frameId := some (jsOrInt sender.frameId 0) }
      | none =>
        some { context := Context.unknown,
               tabId := some (jsOrInt sender.tab 0),
               frameId := some (jsOrInt sender.frameId 0) }
    else
      some { context := Context.unknown, tabId := some 0, frameId := none }

/-- Embeds `AgentManager.getAgentByLocation`: first `agentsInfo` entry whose location
matches all three fields, then both maps must hold the id. -/
def getAgentByLocation (st : AgentManager) (loc : BrowserLocation) : Option Agent :=
  match st.agentsInfo.find? (fun p =>
      p.2.location.context == loc.context ∧
      p.2.location.tabId == loc.tabId ∧
      p.2.location.frameId == loc.frameId) with
  | none => none
  | some (agentId, _) =>
    match mapGet st.agents agentId, mapGet st.agentsInfo agentId with
    | some port, some info => some { port := some port, info := info }
    | _, _ => none

/-- Embeds `AgentManager.addAgent`.  `now` models `Date.now()` and `freshId` the
`uuidv4()` draw used when no existing agent shares the derived location.
Returns the assigned id (`none` when the port has no sender) and the new state. -/
def addAgent (m : Manifest) (now : Int) (freshId : String) (st : AgentManager)
    (port : Port) : Option String × AgentManager :=
  match identifyConnectionSource m port with
  | none => (none, st)
  | some cs =>
    let determinedContext := cs.context
    let tabId := jsOrInt cs.tabId (-1)
    let frameId := jsOrInt cs.frameId (-1)
    let loc : BrowserLocation := ⟨determinedContext, tabId, frameId⟩
    let agentId :=
      match getAgentByLocation st loc with
      | some a => jsOrStr (some a.info.id) freshId
      | none => freshId
    let info : AgentInfo :=
      { id := agentId, location := loc, createdAt := now, lastActiveAt := now }
    (some agentId,
     { agents := mapSet st.agents agentId port,
       agentsInfo := mapSet st.agentsInfo agentId info })

/-- Partial `BrowserLocation` used by `queryAgents` (`Partial<BrowserLocation>`). -/
structure PartialLocation where
  context : Option Context
  tabId : Option Int
  frameId : Option Int
deriving DecidableEq, Repr

/-- Embeds `AgentManager.queryAgents`: each constraint applies only when the supplied
field is truthy (`location.tabId ? ... : true`). -/
def queryAgents (st : AgentManager) (loc : PartialLocation) : List Agent :=
  (st.agentsInfo.filter (fun p =>
      (if truthyStr loc.context then p.2.location.context == loc.context.getD "" else true) ∧
      (if truthyInt loc.tabId then p.2.location.tabId == loc.tabId.getD 0 else true) ∧
      (if truthyInt loc.frameId then p.2.location.frameId == loc.frameId.getD 0 else true))
    ).map (fun p => { port := mapGet st.agents p.1, info := p.2 })

/-- Embeds `AgentManager.getAgentById`. -/
def getAgentById (st : AgentManager) (id : String) : Option Agent :=
  match mapGet st.agents id, mapGet st.agentsInfo id with
  | some port, some info => some { port := some port, info := info }
  | _, _ => none

/-- Embeds `AgentManager.getAllAgents`. -/
def getAllAgents (st : AgentManager) : List Agent :=
  st.agentsInfo.map (fun p => { port := mapGet st.agents p.1, info := p.2 })

/-- Embeds `AgentManager.getAllAgentsInfo`. -/
def getAllAgentsInfo (st : AgentManager) : List AgentInfo :=
  st.agentsInfo.map (·.2)

/-- Embeds `AgentManager.hasPort`: some registered port shares the given port's name. -/
def hasPort (st : AgentManager) (port : Port) : Bool :=
  st.agents.any (fun p => p.2.name == port.name)

/-- Embeds `AgentManager.removeAgent`: delete from both maps when both hold the id,
otherwise do nothing. -/
def removeAgent (st : AgentManager) (agentId : String) : AgentManager :=
  if mapHas st.agents agentId ∧ mapHas st.agentsInfo agentId then
    { agents := mapDelete st.agents agentId,
      agentsInfo := mapDelete st.agentsInfo agentId }
  else st

/-! ### Messages and the router (`MessageHandler`) -/

/-- Embeds `PorterErrorType` from `porter.model.ts`. -/
inductive PorterErrorType
  | connectionFailed
  | connectionTimeout
  | invalidTarget
  | messageFailed
  | invalidContext
  | invalidPort
deriving DecidableEq, Repr

/-- Embeds `MessageTarget` from `porter.model.ts`: location, context, agent id, or tab. -/
inductive MessageTarget
  | location (l : BrowserLocation)
  | context (c : Context)
  | agent (s : String)
  | tab (n : Int)
deriving DecidableEq, Repr

/-- JavaScript truthiness of a `MessageTarget` value (`!!message.target`):
objects are truthy, `""` and `0` are falsy. -/
def MessageTarget.jsTruthy : MessageTarget → Bool
  | .location _ => true
  | .context c => c != ""
  | .agent s => s != ""
  | .tab n => n != 0

/-- Embeds `Message` from `porter.model.ts`: action plus optional target (payload is
not interpreted by the router, and omitted). -/
structure Msg where
  action : String
  target : Option MessageTarget
deriving DecidableEq, Repr

/-- A `MessageConfig`: a finite map from action keys to handler tokens
(handler functions themselves are not modelled; a token stands for one handler function). -/
abbrev MessageConfig := List (String × Nat)

/-- True when `config[action]` is a (truthy) handler. -/
def configHandles (c : MessageConfig) (action : String) : Bool :=
  (mapGet c action).isSome

/-- Observable effect of `MessageHandler.emitMessage` on one inbound message. -/
structure EmitResult where
  /-- the message was consumed by the internal `initializationHandler` table -/
  internalHandled : Bool
  /-- `post(message, target)` was invoked with this target (the relay) -/
  relayed : Option MessageTarget
  /-- the registered listener configs whose handler for the action was invoked -/
  invoked : List MessageConfig
deriving DecidableEq, Repr

/-- Embeds `MessageHandler.emitMessage`: system `porter-` actions with an entry in the
internal table (`porter-messages-established` only) are consumed; otherwise a
truthy `message.target` triggers a relay via `post`, and then every registered
listener whose config has a handler for the action is invoked. -/
def emitMessage (listeners : List MessageConfig) (msg : Msg) : EmitResult :=
  if msg.action.startsWith "porter-" ∧ msg.action == "porter-messages-established" then
    { internalHandled := true, relayed := none, invoked := [] }
  else
    let relayed :=
      match msg.target with
      | some t => if t.jsTruthy then some t else none
      | none => none
    { internalHandled := false,
      relayed := relayed,
      invoked := listeners.filter (fun c => configHandles c msg.action) }

/-- Outcome of iterating `agents.forEach(postToPort)`: the ports that received
the message, and the first error thrown (a thrown `PorterError` escapes the
`forEach` and aborts the remaining iterations).  `sendOk` models whether
`port.postMessage` succeeds on a given port. -/
def postAgentsSeq (sendOk : Port → Bool) : List Agent → List Port × Option PorterErrorType
  | [] => ([], none)
  | a :: rest =>
    match a.port with
    | none => ([], some .invalidTarget)
    | some p =>
      if sendOk p then
        let r := postAgentsSeq sendOk rest
        (p :: r.1, r.2)
      else
        ([], some .messageFailed)

/-- Embeds `MessageHandler.postToContext`: resolve via `queryAgents({context})`, then
send to each in turn (`postToPort` throws on failure). -/
def postToContext (st : AgentManager) (sendOk : Port → Bool) (ctx : Context) :
    List Port × Option PorterErrorType :=
  postAgentsSeq sendOk (queryAgents st ⟨some ctx, none, none⟩)

/-- Embeds `MessageHandler.postToLocation`: resolve via `queryAgents(location)`, then
send to each in turn. -/
def postToLocation (st : AgentManager) (sendOk : Port → Bool) (loc : BrowserLocation) :
    List Port × Option PorterErrorType :=
  postAgentsSeq sendOk (queryAgents st ⟨some loc.context, some loc.tabId, some loc.frameId⟩)

/-! ### `MessageQueue` (endpoint-side buffer) -/

/-- Embeds `QueuedMessage`: message, optional target, enqueue timestamp. -/
structure QueuedMessage where
  message : Msg
  target : Option BrowserLocation
  timestamp : Int
deriving DecidableEq, Repr

/-- Embeds `MessageQueue.maxQueueSize` (1000). -/
def maxQueueSize : Nat := 1000

/-- Embeds `MessageQueue.maxMessageAge` (5 minutes in milliseconds). -/
def maxMessageAge : Int := 5 * 60 * 1000

/-- The queue state: the `queue` array, front first. -/
structure MessageQueue where
  queue : List QueuedMessage
deriving DecidableEq, Repr

def MessageQueue.empty : MessageQueue := ⟨[]⟩

/-- Embeds `MessageQueue.cleanup`: keep entries with `now - timestamp < maxMessageAge`. -/
def cleanup (now : Int) (q : MessageQueue) : MessageQueue :=
  ⟨q.queue.filter (fun item => decide (now - item.timestamp < maxMessageAge))⟩

/-- Embeds `MessageQueue.enqueue`: cleanup, `shift()` the oldest when at capacity,
then `push` the new entry with the current timestamp. -/
def enqueue (now : Int) (m : Msg) (t : Option BrowserLocation) (q : MessageQueue) :
    MessageQueue :=
  let q1 := cleanup now q
  let q2 := if q1.queue.length ≥ maxQueueSize then (⟨q1.queue.tail⟩ : MessageQueue) else q1
  ⟨q2.queue ++ [{ message := m, target := t, timestamp := now }]⟩

/-- Embeds `MessageQueue.dequeue`: return a copy of the whole queue and clear it
(no age check here). -/
def dequeue (q : MessageQueue) : List QueuedMessage × MessageQueue :=
  (q.queue, MessageQueue.empty)

/-- Embeds `MessageQueue.isEmpty`. -/
def queueIsEmpty (q : MessageQueue) : Bool :=
  q.queue.length == 0

/-! ### `AgentConnectionManager.processQueuedMessages` (queue flush on reconnect) -/

/-- The message actually sent for one queued entry: `{...message}` with
`target` overwritten by the queued target when present. -/
def buildQueuedSend (qm : QueuedMessage) : Msg :=
  match qm.target with
  | some t => { qm.message with target := some (.location t) }
  | none => qm.message

/-- The step run for each dequeued entry during
`AgentConnectionManager.processQueuedMessages`: send, or re-enqueue on failure. -/
def flushStep (sendOk : Msg → Bool) (now : Int) (acc : List Msg × MessageQueue)
    (qm : QueuedMessage) : List Msg × MessageQueue :=
  let m := buildQueuedSend qm
  if sendOk m then (acc.1 ++ [m], acc.2)
  else (acc.1, enqueue now qm.message qm.target acc.2)

/-- Embeds `AgentConnectionManager.processQueuedMessages`: when a port exists and the
queue is non-empty, dequeue everything and resend front to back; an entry whose
`postMessage` throws (`sendOk` false) is re-enqueued with the current time.
Returns the messages actually sent, in send order, and the resulting queue. -/
def processQueuedMessages (sendOk : Msg → Bool) (now : Int) (port : Option Port)
    (q : MessageQueue) : List Msg × MessageQueue :=
  if port.isNone ∨ queueIsEmpty q then ([], q)
  else
    let d := dequeue q
    d.1.foldl (flushStep sendOk now) (([], d.2) : List Msg × MessageQueue)

/-! ### `ConnectionManager` (hub-side handshake) -/

/-- Payload of a `porter-init` message: the endpoint's previous `AgentInfo`
(or null on first connect) and its connection id (`""` models a falsy id). -/
structure InitPayload where
  info : Option AgentInfo
  connectionId : Option String
deriving DecidableEq, Repr

/-- Observable outcome of the handshake code on one channel. -/
structure HandshakeOutcome where
  /-- a `porter-error` message with this typed reason was posted on the channel -/
  errorSent : Option PorterErrorType
  /-- a `porter-handshake` confirmation was posted on the channel -/
  handshakeSent : Bool
  /-- `port.disconnect()` was called -/
  disconnected : Bool
deriving DecidableEq, Repr

/-- Truthiness of the optional `info` object (objects are truthy, null falsy). -/
def truthyInfo (x : Option AgentInfo) : Bool :=
  x.isSome

/-- Embeds `ConnectionManager.handleInitMessage`: ignore non-`porter-init` actions;
a missing `info` or `connectionId` raises `INVALID_CONTEXT`, which
`handleConnectionError` turns into a posted `porter-error` plus disconnect;
otherwise `addAgent` runs and success is confirmed with `porter-handshake`. -/
def handleInitMessage (m : Manifest) (now : Int) (freshId : String)
    (st : AgentManager) (port : Port) (action : String) (payload : InitPayload) :
    HandshakeOutcome × AgentManager :=
  if action != "porter-init" then
    ({ errorSent := none, handshakeSent := false, disconnected := false }, st)
  else if ¬ (truthyInfo payload.info ∧ truthyStr payload.connectionId) then
    ({ errorSent := some .invalidContext, handshakeSent := false, disconnected := true }, st)
  else
    let r := addAgent m now freshId st port
    match r.1 with
    | none =>
      ({ errorSent := some .invalidContext, handshakeSent := false, disconnected := true }, r.2)
    | some agentId =>
      match getAgentById r.2 agentId with
      | some _ =>
        ({ errorSent := none, handshakeSent := true, disconnected := false }, r.2)
      | none =>
        ({ errorSent := none, handshakeSent := false, disconnected := false }, r.2)

/-- The watchdog installed by `ConnectionManager.handleConnection`: when the
5-second timer fires and the registry has no port with this name, the channel
is disconnected — no error message is posted on this path. -/
def watchdogExpire (st : AgentManager) (port : Port) : HandshakeOutcome :=
  if hasPort st port then
    { errorSent := none, handshakeSent := false, disconnected := false }
  else
    { errorSent := none, handshakeSent := false, disconnected := true }

/-! ### Operation sequences on the registry -/

/-- One registry operation: `addAgent` (with its port, clock value and uuid draw)
or `removeAgent`. -/
inductive RegistryOp
  | add (port : Port) (now : Int) (freshId : String)
  | remove (id : String)
deriving DecidableEq, Repr

/-- Apply one registry operation to the state. -/
def applyOp (m : Manifest) (st : AgentManager) : RegistryOp → AgentManager
  | .add port now freshId => (addAgent m now freshId st port).2
  | .remove id => removeAgent st id

/-- Run a sequence of registry operations from the empty registry. -/
def runOps (m : Manifest) (ops : List RegistryOp) : AgentManager :=
  ops.foldl (applyOp m) AgentManager.empty

/-! ### Concrete fixtures used by witnesses and counterexamples -/

def defaultManifest : Manifest := ⟨"", "", "", "", "", "", ""⟩

def portNoSender : Port := ⟨0, "porter:x1", none⟩

def senderTab7 : Sender := ⟨some 7, some 0, some "https://example.com/"⟩

def portTab7 : Port := ⟨1, "porter:x2", some senderTab7⟩

def portTab7b : Port := ⟨5, "porter:x9", some senderTab7⟩

def senderNoUrl : Sender := ⟨none, none, none⟩

def portNoUrl : Port := ⟨2, "porter:x3", some senderNoUrl⟩

/-- Registry state after `portTab7` first connects at time 100 with uuid draw
`"uuid-1"`. -/
def stC1 : AgentManager := (addAgent defaultManifest 100 "uuid-1" AgentManager.empty portTab7).2

/-- The registered agent for `portTab7` inside `stC1`. -/
def agentC1 : Agent := ⟨some portTab7, ⟨"uuid-1", ⟨Context.contentscript, 7, -1⟩, 100, 100⟩⟩

def portA : Port := ⟨10, "porter:a", none⟩

def portB : Port := ⟨11, "porter:b", none⟩

def infoA : AgentInfo := ⟨"idA", ⟨Context.contentscript, 0, 1⟩, 0, 0⟩

def infoB : AgentInfo := ⟨"idB", ⟨Context.contentscript, 5, 1⟩, 0, 0⟩

/-- Registry holding one agent in tab 0 and one in tab 5. -/
def stTabs : AgentManager := ⟨[("idA", portA), ("idB", portB)], [("idA", infoA), ("idB", infoB)]⟩

def portP1 : Port := ⟨21, "porter:p1", none⟩

def portP2 : Port := ⟨22, "porter:p2", none⟩

def infoP1 : AgentInfo := ⟨"p1", ⟨"popup", 1, 1⟩, 0, 0⟩

def infoP2 : AgentInfo := ⟨"p2", ⟨"popup", 2, 1⟩, 0, 0⟩

/-- Registry holding two agents of context `"popup"`. -/
def stPopup : AgentManager := ⟨[("p1", portP1), ("p2", portP2)], [("p1", infoP1), ("p2", infoP2)]⟩

/-- A send function whose channel to `portP1` is stale and throws. -/
def sendFailP1 : Port → Bool := fun p => p.pid != 21

def cfgPing : MessageConfig := [("ping", 1)]

def msgPingTargeted : Msg := ⟨"ping", some (.agent "idB")⟩

def msgHello : Msg := ⟨"hello", none⟩

/-- A queue entry enqueued at time 0. -/
def staleEntry : QueuedMessage := ⟨msgHello, none, 0⟩

def qStale : MessageQueue := ⟨[staleEntry]⟩

def msgA : Msg := ⟨"A", none⟩

def msgB : Msg := ⟨"B", none⟩

def msgC : Msg := ⟨"C", none⟩

/-- Queue holding A, B, C enqueued in that order. -/
def qABC : MessageQueue := ⟨[⟨msgA, none, 0⟩, ⟨msgB, none, 0⟩, ⟨msgC, none, 0⟩]⟩

/-- Resend succeeds for every message except action `"B"`. -/
def sendNotB : Msg → Bool := fun m => m.action != "B"

/-- A queue filled to capacity with entries from time 0. -/
def qFull : MessageQueue := ⟨List.replicate maxQueueSize staleEntry⟩

/-! ## Helper lemmas about the insertion-ordered maps -/

theorem mapHas_iff_mem {β : Type} (m : List (String × β)) (k : String) :
    mapHas m k = true ↔ k ∈ mapKeys m := by
  simp [mapHas, mapKeys, List.any_eq_true, List.mem_map, beq_iff_eq]

theorem mapKeys_mapSet {β : Type} (m : List (String × β)) (k : String) (v : β) :
    mapKeys (mapSet m k v) = if mapHas m k then mapKeys m else mapKeys m ++ [k] := by
  by_cases h : mapHas m k = true
  · simp only [mapSet, h, if_true, mapKeys, List.map_map]
    refine List.map_congr_left ?_
    intro p _
    by_cases hpk : p.1 = k
    · simp [Function.comp, hpk]
    · simp [Function.comp, hpk]
  · simp [mapSet, h, mapKeys]

theorem mapKeys_mapDelete {β : Type} (m : List (String × β)) (k : String) :
    mapKeys (mapDelete m k) = (mapKeys m).filter (fun x => x != k) := by
  induction m with
  | nil => rfl
  | cons p tl ih =>
    by_cases h : p.1 = k
    · simp [mapDelete, mapKeys, List.filter, h] at ih ⊢
      simpa [mapDelete, mapKeys] using ih
    · simp only [mapDelete, mapKeys, List.filter_cons, List.map_cons] at ih ⊢
      simp [h, ih]

theorem mapGet_append_single {β : Type} (m : List (String × β)) (k : String) (v : β) :
    mapHas m k = false → mapGet (m ++ [(k, v)]) k = some v := by
  induction m with
  | nil => intro _; simp [mapGet]
  | cons p tl ih =>
    intro h
    simp only [mapHas, List.any_cons, Bool.or_eq_false_iff] at h
    obtain ⟨hpk, htl⟩ := h
    rw [List.cons_append]
    show mapGet (p :: (tl ++ [(k, v)])) k = some v
    rw [mapGet]
    simp only [List.find?_cons, hpk]
    exact ih htl

theorem mapGet_replace_self {β : Type} (m : List (String × β)) (k : String) (v : β) :
    mapHas m k = true →
    mapGet (m.map (fun p => if p.1 == k then (k, v) else p)) k = some v := by
  induction m with
  | nil => intro h; simp [mapHas] at h
  | cons p tl ih =>
    intro h
    by_cases hpk : (p.1 == k) = true
    · rw [List.map_cons, if_pos hpk]
      simp [mapGet, List.find?_cons_of_pos]
    · have htl : mapHas tl k = true := by
        simp only [mapHas, List.any_cons, Bool.or_eq_true] at h
        rcases h with h | h
        · exact absurd h hpk
        · exact h
      have hpk' : (p.1 == k) = false := Bool.eq_false_iff.2 hpk
      rw [List.map_cons, if_neg hpk]
      show mapGet (p :: tl.map (fun p => if p.1 == k then (k, v) else p)) k = some v
      rw [mapGet]
      simp only [List.find?_cons, hpk']
      exact ih htl

theorem mapGet_mapSet_self {β : Type} (m : List (String × β)) (k : String) (v : β) :
    mapGet (mapSet m k v) k = some v := by
  by_cases h : mapHas m k = true
  · rw [mapSet, if_pos h]
    exact mapGet_replace_self m k v h
  · rw [mapSet, if_neg h]
    exact mapGet_append_single m k v (Bool.eq_false_iff.2 h)

/-! ## C10: registry map consistency -/

/-- The registry invariant: both maps carry the same key list, without duplicates. -/
def RegInv (st : AgentManager) : Prop :=
  mapKeys st.agents = mapKeys st.agentsInfo ∧ (mapKeys st.agents).Nodup

theorem regInv_addAgent (m : Manifest) (now : Int) (freshId : String)
    (st : AgentManager) (port : Port) (h : RegInv st) :
    RegInv (addAgent m now freshId st port).2 := by
  obtain ⟨hk, hn⟩ := h
  unfold addAgent
  cases hcs : identifyConnectionSource m port with
  | none => exact ⟨hk, hn⟩
  | some cs =>
    simp only
    set agentId :=
      match getAgentByLocation st ⟨cs.context, jsOrInt cs.tabId (-1), jsOrInt cs.frameId (-1)⟩ with
      | some a => jsOrStr (some a.info.id) freshId
      | none => freshId with hid
    constructor
    · rw [mapKeys_mapSet, mapKeys_mapSet, hk]
      have : mapHas st.agents agentId = mapHas st.agentsInfo agentId := by
        by_cases hmem : agentId ∈ mapKeys st.agentsInfo
        · rw [(mapHas_iff_mem _ _).2 (hk ▸ hmem), (mapHas_iff_mem _ _).2 hmem]
        · have h1 : ¬ mapHas st.agents agentId = true := fun hc =>
            hmem (hk ▸ (mapHas_iff_mem _ _).1 hc)
          have h2 : ¬ mapHas st.agentsInfo agentId = true := fun hc =>
            hmem ((mapHas_iff_mem _ _).1 hc)
          rw [Bool.eq_false_iff.2 h1, Bool.eq_false_iff.2 h2]
      rw [this]
    · rw [mapKeys_mapSet]
      by_cases hhas : mapHas st.agents agentId = true
      · simpa [hhas] using hn
      · have hmem : agentId ∉ mapKeys st.agents := fun hc =>
          hhas ((mapHas_iff_mem _ _).2 hc)
        simp [hhas, List.nodup_append, hn, hmem]

theorem regInv_removeAgent (st : AgentManager) (id : String) (h : RegInv st) :
    RegInv (removeAgent st id) := by
  obtain ⟨hk, hn⟩ := h
  unfold removeAgent
  by_cases hc : mapHas st.agents id = true ∧ mapHas st.agentsInfo id = true
  · simp only [hc, if_pos, and_self]
    refine ⟨?_, ?_⟩
    · rw [mapKeys_mapDelete, mapKeys_mapDelete, hk]
    · rw [mapKeys_mapDelete]
      exact hn.filter _
  · simp only [if_neg hc]
    exact ⟨hk, hn⟩

theorem regInv_applyOp (m : Manifest) (st : AgentManager) (op : RegistryOp)
    (h : RegInv st) : RegInv (applyOp m st op) := by
  cases op with
  | add port now freshId => exact regInv_addAgent m now freshId st port h
  | remove id => exact regInv_removeAgent st id h

theorem regInv_foldl (m : Manifest) (ops : List RegistryOp) :
    ∀ st, RegInv st → RegInv (ops.foldl (applyOp m) st) := by
  induction ops with
  | nil => intro st h; exact h
  | cons op tl ih =>
    intro st h
    exact ih _ (regInv_applyOp m st op h)

/-- C10: after any sequence of `addAgent`/`removeAgent` operations from the empty
registry, the identity-to-port map and the identity-to-info map have exactly the
same keys, each occurring once: every registered identity has exactly one channel
handle and exactly one info record, and removal deletes both together or neither. -/
theorem registry_map_consistency (m : Manifest) (ops : List RegistryOp) :
    mapKeys (runOps m ops).agents = mapKeys (runOps m ops).agentsInfo ∧
    (mapKeys (runOps m ops).agents).Nodup :=
  regInv_foldl m ops AgentManager.empty ⟨rfl, List.nodup_nil⟩

/-! ## C1: identity stability on reconnection -/

/-- C1: when `addAgent` derives an address (category/context plus `|| -1`
normalised tab and frame coordinates) that matches an entry still present in the
registry, the existing identity is reused; when no entry matches, the fresh
random identity is assigned. -/
theorem addAgent_identity_stability (m : Manifest) (now : Int) (freshId : String)
    (st : AgentManager) (port : Port) (cs : ConnectionSource)
    (hcs : identifyConnectionSource m port = some cs) :
    (∀ a, getAgentByLocation st
        ⟨cs.context, jsOrInt cs.tabId (-1), jsOrInt cs.frameId (-1)⟩ = some a →
      a.info.id ≠ "" → (addAgent m now freshId st port).1 = some a.info.id) ∧
    (getAgentByLocation st
        ⟨cs.context, jsOrInt cs.tabId (-1), jsOrInt cs.frameId (-1)⟩ = none →
      (addAgent m now freshId st port).1 = some freshId) := by
  constructor
  · intro a ha hid
    unfold addAgent
    rw [hcs]
    simp only [ha, jsOrStr]
    simp [hid]
  · intro hnone
    unfold addAgent
    rw [hcs]
    simp [hnone]

/-- Witness for C1: `portTab7` connects at time 100 and is assigned `"uuid-1"`;
a reconnection from the same tab/frame while the entry is still present reuses
`"uuid-1"` instead of the fresh draw `"uuid-2"`; on an empty registry the fresh
draw is used. -/
theorem addAgent_identity_stability_witness :
    identifyConnectionSource defaultManifest portTab7b =
      some ⟨Context.contentscript, some 7, some 0⟩ ∧
    getAgentByLocation stC1 ⟨Context.contentscript, 7, -1⟩ = some agentC1 ∧
    agentC1.info.id ≠ "" ∧
    (addAgent defaultManifest 200 "uuid-2" stC1 portTab7b).1 = some "uuid-1" ∧
    getAgentByLocation AgentManager.empty ⟨Context.contentscript, 7, -1⟩ = none ∧
    (addAgent defaultManifest 100 "uuid-1" AgentManager.empty portTab7).1 = some "uuid-1" := by
  refine ⟨by decide, by decide, by decide, ?_, by decide, ?_⟩
  · have h := (addAgent_identity_stability defaultManifest 200 "uuid-2" stC1 portTab7b
      ⟨Context.contentscript, some 7, some 0⟩ (by decide)).1 agentC1 (by decide) (by decide)
    simpa using h
  · exact (addAgent_identity_stability defaultManifest 100 "uuid-1" AgentManager.empty portTab7
      ⟨Context.contentscript, some 7, some 0⟩ (by decide)).2 (by decide)

/-! ## C8: registry add failure semantics -/

theorem identify_noSender (m : Manifest) (port : Port) (hs : port.sender = none) :
    identifyConnectionSource m port = none := by
  unfold identifyConnectionSource
  rw [hs]

theorem identify_fallback (m : Manifest) (port : Port) (sender : Sender)
    (hs : port.sender = some sender) (hu : truthyStr sender.url = false) :
    identifyConnectionSource m port = some ⟨Context.unknown, some 0, none⟩ := by
  unfold identifyConnectionSource
  rw [hs]
  simp [hu]

/-- C8 counterexample: `addAgent` on a port with no sender does not succeed — it
returns no identity and registers nothing (in particular nothing under the
`"unknown"` category), refuting the claim that such an add still registers the
endpoint. -/
theorem addAgent_noSender_counterexample :
    (addAgent defaultManifest 5 "u1" AgentManager.empty portNoSender).1 = none ∧
    (addAgent defaultManifest 5 "u1" AgentManager.empty portNoSender).2.agentsInfo = [] := by
  decide

/-- C8 (amended): `addAgent` never throws; with a sender whose source cannot be
classified (no usable url) it succeeds and registers the endpoint under the
fallback category `"unknown"`; with no sender at all it returns no identity and
leaves the registry unchanged. -/
theorem addAgent_failure_semantics (m : Manifest) (now : Int) (freshId : String)
    (st : AgentManager) (port : Port) :
    (port.sender = none → addAgent m now freshId st port = (none, st)) ∧
    (∀ sender, port.sender = some sender → truthyStr sender.url = false →
      ∃ id, (addAgent m now freshId st port).1 = some id ∧
        mapGet (addAgent m now freshId st port).2.agentsInfo id =
          some ⟨id, ⟨Context.unknown, -1, -1⟩, now, now⟩) := by
  constructor
  · intro hs
    unfold addAgent
    rw [identify_noSender m port hs]
  · intro sender hs hu
    unfold addAgent
    rw [identify_fallback m port sender hs hu]
    refine ⟨_, rfl, ?_⟩
    simpa [jsOrInt] using mapGet_mapSet_self st.agentsInfo _ _

/-- Witness for C8: the no-sender port is rejected without touching the state;
the sender-without-url port is registered under `"unknown"`. -/
theorem addAgent_failure_semantics_witness :
    portNoSender.sender = none ∧
    addAgent defaultManifest 5 "u1" AgentManager.empty portNoSender =
      (none, AgentManager.empty) ∧
    portNoUrl.sender = some senderNoUrl ∧
    truthyStr senderNoUrl.url = false ∧
    (∃ id, (addAgent defaultManifest 5 "u1" AgentManager.empty portNoUrl).1 = some id ∧
      mapGet (addAgent defaultManifest 5 "u1" AgentManager.empty portNoUrl).2.agentsInfo id =
        some ⟨id, ⟨Context.unknown, -1, -1⟩, 5, 5⟩) := by
  refine ⟨rfl, ?_, rfl, rfl, ?_⟩
  · exact (addAgent_failure_semantics defaultManifest 5 "u1" AgentManager.empty portNoSender).1 rfl
  · exact (addAgent_failure_semantics defaultManifest 5 "u1" AgentManager.empty portNoUrl).2
      senderNoUrl rfl rfl

/-! ## C9: query AND-semantics -/

theorem fieldStr_iff (oc : Option String) (x : String) (hc : oc ≠ some "") :
    ((if truthyStr oc then x == oc.getD "" else true) = true) ↔
      (∀ c, oc = some c → x = c) := by
  rcases oc with _ | c
  · simp [truthyStr]
  · have hc' : c ≠ "" := fun h => hc (by rw [h])
    simp [truthyStr, hc']

theorem fieldInt_iff (ot : Option Int) (x : Int) (ht : ot ≠ some 0) :
    ((if truthyInt ot then x == ot.getD 0 else true) = true) ↔
      (∀ t, ot = some t → x = t) := by
  rcases ot with _ | t
  · simp [truthyInt]
  · have ht' : t ≠ 0 := fun h => ht (by rw [h])
    simp [truthyInt, ht']

/-- C9 counterexample: `queryAgents` with `tabId = 0` supplied returns agents of
other tabs as well — the zero-valued field is treated as unconstrained, refuting
AND-semantics "for every field value including zero". -/
theorem queryAgents_zero_counterexample :
    ¬ (∀ a ∈ queryAgents stTabs ⟨none, some 0, none⟩, a.info.location.tabId = 0) := by
  decide

/-- C9 (amended): for truthy supplied fields (context not `""`, tabId and
frameId not `0`), `queryAgents` returns exactly the registered endpoints
matching every supplied field, omitted fields unconstrained; a zero-valued
field behaves as if omitted. -/
theorem queryAgents_and_semantics (st : AgentManager) (loc : PartialLocation)
    (info : AgentInfo) (hc : loc.context ≠ some "") (ht : loc.tabId ≠ some 0)
    (hf : loc.frameId ≠ some 0) :
    (∃ a ∈ queryAgents st loc, a.info = info) ↔
      ((∃ p ∈ st.agentsInfo, p.2 = info) ∧
       (∀ c, loc.context = some c → info.location.context = c) ∧
       (∀ t, loc.tabId = some t → info.location.tabId = t) ∧
       (∀ f, loc.frameId = some f → info.location.frameId = f)) := by
  obtain ⟨oc, ot, of_⟩ := loc
  constructor
  · rintro ⟨a, hamem, hainfo⟩
    simp only [queryAgents, List.mem_map] at hamem
    obtain ⟨p, hpfil, hpa⟩ := hamem
    rw [List.mem_filter] at hpfil
    obtain ⟨hpmem, hpred⟩ := hpfil
    rw [decide_eq_true_eq] at hpred
    have hinfo : p.2 = info := by rw [← hainfo, ← hpa]
    rw [hinfo] at hpred
    obtain ⟨h1, h2, h3⟩ := hpred
    exact ⟨⟨p, hpmem, hinfo⟩, (fieldStr_iff oc _ hc).1 h1,
      (fieldInt_iff ot _ ht).1 h2, (fieldInt_iff of_ _ hf).1 h3⟩
  · rintro ⟨⟨p, hpmem, hpinfo⟩, hcs, hts, hfs⟩
    refine ⟨⟨mapGet st.agents p.1, p.2⟩, ?_, hpinfo⟩
    simp only [queryAgents, List.mem_map]
    refine ⟨p, ?_, rfl⟩
    rw [List.mem_filter]
    refine ⟨hpmem, ?_⟩
    rw [decide_eq_true_eq, hpinfo]
    exact ⟨(fieldStr_iff oc _ hc).2 hcs, (fieldInt_iff ot _ ht).2 hts,
      (fieldInt_iff of_ _ hf).2 hfs⟩

/-- Witness for C9: querying `{context: contentscript, tabId: 5}` on the
two-agent registry characterises membership of `infoB` exactly. -/
theorem queryAgents_and_semantics_witness :
    ((some Context.contentscript : Option Context) ≠ some "") ∧
    ((some (5 : Int) : Option Int) ≠ some 0) ∧
    ((none : Option Int) ≠ some 0) ∧
    ((∃ a ∈ queryAgents stTabs ⟨some Context.contentscript, some 5, none⟩, a.info = infoB) ↔
      ((∃ p ∈ stTabs.agentsInfo, p.2 = infoB) ∧
       (∀ c, (some Context.contentscript : Option Context) = some c →
          infoB.location.context = c) ∧
       (∀ t, (some (5 : Int) : Option Int) = some t → infoB.location.tabId = t) ∧
       (∀ f, (none : Option Int) = some f → infoB.location.frameId = f))) :=
  ⟨by decide, by decide, by decide,
    queryAgents_and_semantics stTabs ⟨some Context.contentscript, some 5, none⟩ infoB
      (by decide) (by decide) (by decide)⟩

/-! ## C2: relay behaviour at the hub -/

/-- C2 counterexample: a message with an explicit target is relayed *and* still
matched against the locally registered handler for its action — `emitMessage`
does not return after relaying, so double-delivery occurs at the hub. -/
theorem emitMessage_double_delivery_counterexample :
    (emitMessage [cfgPing] msgPingTargeted).relayed = some (.agent "idB") ∧
    (emitMessage [cfgPing] msgPingTargeted).invoked ≠ [] := by
  decide

/-- C2 (amended): for every non-internal inbound message with a truthy explicit
target, dispatch relays it via `post` to that target and *also* invokes every
locally registered handler matching the action — targeted messages can be
double-delivered at the hub. -/
theorem emitMessage_relays_and_dispatches (L : List MessageConfig) (msg : Msg)
    (t : MessageTarget) (htar : msg.target = some t) (htru : t.jsTruthy = true)
    (hne : msg.action ≠ "porter-messages-established") :
    (emitMessage L msg).relayed = some t ∧
    ∀ c ∈ L, configHandles c msg.action = true → c ∈ (emitMessage L msg).invoked := by
  have hcond : ¬ (msg.action.startsWith "porter-" = true ∧
      (msg.action == "porter-messages-established") = true) := by
    rintro ⟨-, h2⟩
    exact hne (by simpa using h2)
  constructor
  · unfold emitMessage
    rw [if_neg hcond]
    simp [htar, htru]
  · intro c hcL hch
    unfold emitMessage
    rw [if_neg hcond]
    simp [List.mem_filter, hcL, hch]

/-- Witness for C2 (amended): the targeted `"ping"` message is relayed to its
target and the registered ping handler is also invoked. -/
theorem emitMessage_relays_and_dispatches_witness :
    msgPingTargeted.target = some (.agent "idB") ∧
    (MessageTarget.agent "idB").jsTruthy = true ∧
    msgPingTargeted.action ≠ "porter-messages-established" ∧
    (emitMessage [cfgPing] msgPingTargeted).relayed = some (.agent "idB") ∧
    cfgPing ∈ (emitMessage [cfgPing] msgPingTargeted).invoked := by
  have h := emitMessage_relays_and_dispatches [cfgPing] msgPingTargeted (.agent "idB")
    rfl rfl (by decide)
  exact ⟨rfl, rfl, by decide, h.1, h.2 cfgPing (by decide) (by decide)⟩

/-! ## C3: batch send is aborted by a single failure -/

/-- C3 counterexample: with two live `"popup"` endpoints where the channel to
the first throws on send, `postToContext` delivers to *no* endpoint — the
`PorterError` thrown inside the `forEach` aborts the sibling send to the second,
healthy channel. -/
theorem postToContext_abort_counterexample :
    postToContext stPopup sendFailP1 "popup" = ([], some .messageFailed) ∧
    (queryAgents stPopup ⟨some "popup", none, none⟩).length = 2 ∧
    sendFailP1 portP2 = true := by
  decide

theorem postAgentsSeq_prefix_abort (sendOk : Port → Bool) (pre : List Agent)
    (a : Agent) (rest : List Agent)
    (hpre : ∀ b ∈ pre, ∃ p, b.port = some p ∧ sendOk p = true)
    (ha : ∀ p, a.port = some p → sendOk p = false) :
    (postAgentsSeq sendOk (pre ++ a :: rest)).1 = pre.filterMap (·.port) ∧
    (postAgentsSeq sendOk (pre ++ a :: rest)).2.isSome = true := by
  induction pre with
  | nil =>
    simp only [List.nil_append, List.filterMap_nil]
    cases hap : a.port with
    | none => simp [postAgentsSeq, hap]
    | some p =>
      have hfail := ha p hap
      simp [postAgentsSeq, hap, hfail]
  | cons b tl ih =>
    obtain ⟨p, hbp, hsp⟩ := hpre b (List.mem_cons_self _ _)
    have ihh := ih (fun x hx => hpre x (List.mem_cons_of_mem _ hx))
    rw [List.cons_append]
    constructor
    · show (postAgentsSeq sendOk (b :: (tl ++ a :: rest))).1 = (b :: tl).filterMap (·.port)
      rw [postAgentsSeq, hbp]
      simp only [hsp, if_true]
      rw [List.filterMap_cons, hbp]
      simp only [List.cons.injEq, true_and]
      exact ihh.1
    · show (postAgentsSeq sendOk (b :: (tl ++ a :: rest))).2.isSome = true
      rw [postAgentsSeq, hbp]
      simp only [hsp, if_true]
      exact ihh.2

/-- C3 (amended): when the agents resolved for a context split as a prefix whose
sends all succeed, followed by one agent whose send fails, `postToContext`
delivers only to the prefix — the endpoints after the failing one receive
nothing — and the failure escapes as an error for the whole batch. -/
theorem postToContext_batch_abort (st : AgentManager) (sendOk : Port → Bool)
    (ctx : Context) (pre : List Agent) (a : Agent) (rest : List Agent)
    (hq : queryAgents st ⟨some ctx, none, none⟩ = pre ++ a :: rest)
    (hpre : ∀ b ∈ pre, ∃ p, b.port = some p ∧ sendOk p = true)
    (ha : ∀ p, a.port = some p → sendOk p = false) :
    (postToContext st sendOk ctx).1 = pre.filterMap (·.port) ∧
    (postToContext st sendOk ctx).2.isSome = true := by
  unfold postToContext
  rw [hq]
  exact postAgentsSeq_prefix_abort sendOk pre a rest hpre ha

/-- Witness for C3 (amended): the failing first popup channel leaves the empty
delivered set and a surfaced error; the second popup endpoint gets nothing. -/
theorem postToContext_batch_abort_witness :
    queryAgents stPopup ⟨some "popup", none, none⟩ =
      [⟨some portP1, infoP1⟩, ⟨some portP2, infoP2⟩] ∧
    (postToContext stPopup sendFailP1 "popup").1 =
      ([] : List Agent).filterMap (·.port) ∧
    (postToContext stPopup sendFailP1 "popup").2.isSome = true := by
  have h := postToContext_batch_abort stPopup sendFailP1 "popup" []
    ⟨some portP1, infoP1⟩ [⟨some portP2, infoP2⟩] (by decide)
    (by intro b hb; simp at hb)
    (by
      intro p hp
      have hpp : portP1 = p := by simpa using hp
      rw [← hpp]
      decide)
  exact ⟨by decide, h.1, h.2⟩

/-! ## Queue lemmas -/

theorem cleanup_eq_self (now : Int) (q : MessageQueue)
    (h : ∀ e ∈ q.queue, now - e.timestamp < maxMessageAge) : cleanup now q = q := by
  unfold cleanup
  cases q with
  | mk l =>
    simp only [MessageQueue.mk.injEq]
    apply List.filter_eq_self.2
    intro e he
    exact decide_eq_true (h e he)

theorem enqueue_fresh (now : Int) (m : Msg) (t : Option BrowserLocation)
    (q : MessageQueue) (h : ∀ e ∈ q.queue, now - e.timestamp < maxMessageAge)
    (hlen : q.queue.length < maxQueueSize) :
    (enqueue now m t q).queue = q.queue ++ [⟨m, t, now⟩] := by
  simp only [enqueue]
  rw [cleanup_eq_self now q h]
  rw [if_neg (by omega : ¬ q.queue.length ≥ maxQueueSize)]

theorem flush_foldl_spec (sendOk : Msg → Bool) (now : Int) (msgs : List QueuedMessage) :
    ∀ (accSent : List Msg) (accQ : List QueuedMessage),
      (∀ e ∈ accQ, e.timestamp = now) →
      accQ.length + (msgs.filter (fun qm => ! sendOk (buildQueuedSend qm))).length
          ≤ maxQueueSize →
      msgs.foldl (flushStep sendOk now) (accSent, ⟨accQ⟩) =
        (accSent ++ (msgs.filter (fun qm => sendOk (buildQueuedSend qm))).map buildQueuedSend,
         ⟨accQ ++ (msgs.filter (fun qm => ! sendOk (buildQueuedSend qm))).map
            (fun qm => ⟨qm.message, qm.target, now⟩)⟩) := by
  induction msgs with
  | nil =>
    intro accSent accQ _ _
    simp
  | cons qm tl ih =>
    intro accSent accQ hts hlen
    by_cases hok : sendOk (buildQueuedSend qm) = true
    · rw [List.foldl_cons]
      have hstep : flushStep sendOk now (accSent, ⟨accQ⟩) qm =
          (accSent ++ [buildQueuedSend qm], ⟨accQ⟩) := by
        unfold flushStep
        rw [if_pos hok]
      rw [hstep]
      rw [ih (accSent ++ [buildQueuedSend qm]) accQ hts
        (by simpa [List.filter_cons, hok] using hlen)]
      simp [List.filter_cons, hok, List.append_assoc]
    · have hok' : sendOk (buildQueuedSend qm) = false := Bool.eq_false_iff.2 hok
      rw [List.foldl_cons]
      have hstep : flushStep sendOk now (accSent, ⟨accQ⟩) qm =
          (accSent, enqueue now qm.message qm.target ⟨accQ⟩) := by
        unfold flushStep
        rw [if_neg hok]
      rw [hstep]
      have hcount : (List.filter (fun x => ! sendOk (buildQueuedSend x)) (qm :: tl)).length =
          (List.filter (fun x => ! sendOk (buildQueuedSend x)) tl).length + 1 := by
        simp [List.filter_cons, hok']
      have hlt : accQ.length < maxQueueSize := by omega
      have henq : (enqueue now qm.message qm.target ⟨accQ⟩).queue =
          accQ ++ [⟨qm.message, qm.target, now⟩] :=
        enqueue_fresh now qm.message qm.target ⟨accQ⟩
          (by
            intro e he
            rw [hts e he]
            simp only [sub_self]
            decide)
          hlt
      have henq' : enqueue now qm.message qm.target ⟨accQ⟩ =
          ⟨accQ ++ [⟨qm.message, qm.target, now⟩]⟩ := by
        rw [← henq]
      rw [henq']
      have hts' : ∀ e ∈ accQ ++ [(⟨qm.message, qm.target, now⟩ : QueuedMessage)],
          e.timestamp = now := by
        intro e he
        rcases List.mem_append.1 he with h | h
        · exact hts e h
        · simp only [List.mem_singleton] at h
          rw [h]
      have hlen' : (accQ ++ [(⟨qm.message, qm.target, now⟩ : QueuedMessage)]).length +
          (List.filter (fun x => ! sendOk (buildQueuedSend x)) tl).length ≤ maxQueueSize := by
        simp only [List.length_append, List.length_singleton]
        omega
      rw [ih _ _ hts' hlen']
      simp [List.filter_cons, hok', List.append_assoc]

/-! ## C5: queue FIFO replay with re-enqueue of failures -/

/-- C5: the flush after reconnection sends the queued messages front to back —
the delivered sequence is exactly the queue's successes in enqueue order — and
every entry whose resend fails is re-enqueued (with a refreshed timestamp)
rather than lost. -/
theorem processQueued_fifo (sendOk : Msg → Bool) (now : Int) (port : Port)
    (q : MessageQueue)
    (hcount : (q.queue.filter (fun qm => ! sendOk (buildQueuedSend qm))).length
        ≤ maxQueueSize) :
    (processQueuedMessages sendOk now (some port) q).1 =
      (q.queue.filter (fun qm => sendOk (buildQueuedSend qm))).map buildQueuedSend ∧
    (processQueuedMessages sendOk now (some port) q).2.queue =
      (q.queue.filter (fun qm => ! sendOk (buildQueuedSend qm))).map
        (fun qm => ⟨qm.message, qm.target, now⟩) := by
  unfold processQueuedMessages
  by_cases hemp : queueIsEmpty q = true
  · have hq : q.queue = [] := by simpa [queueIsEmpty] using hemp
    simp [hemp, hq]
  · rw [if_neg (by simp [hemp])]
    unfold dequeue
    rw [show (MessageQueue.empty : MessageQueue) = ⟨[]⟩ from rfl]
    rw [flush_foldl_spec sendOk now q.queue [] [] (by simp) (by simpa using hcount)]
    simp

/-- Witness for C5: flushing the queue A, B, C where resending B fails delivers
A then C in order and re-enqueues B. -/
theorem processQueued_fifo_witness :
    (qABC.queue.filter (fun qm => ! sendNotB (buildQueuedSend qm))).length
        ≤ maxQueueSize ∧
    (processQueuedMessages sendNotB 9 (some portA) qABC).1 = [msgA, msgC] ∧
    (processQueuedMessages sendNotB 9 (some portA) qABC).2.queue =
      [⟨msgB, none, 9⟩] := by
  have h := processQueued_fifo sendNotB 9 portA qABC (by decide)
  refine ⟨by decide, ?_, ?_⟩
  · rw [h.1]
    decide
  · rw [h.2]
    decide

/-! ## C4: queue aging happens on enqueue only, not at flush -/

/-- C4 counterexample: an entry five minutes past its age limit at flush time is
still delivered — `dequeue` performs no cleanup, so aging is not applied at
flush, refuting "dropped and never delivered, regardless of position". -/
theorem flush_delivers_expired_counterexample :
    maxMessageAge ≤ 400000 - staleEntry.timestamp ∧
    (processQueuedMessages (fun _ => true) 400000 (some portA) qStale).1 =
      [msgHello] := by
  decide

/-- C4 (amended): expiry is enforced only by the cleanup run inside `enqueue`
— after any enqueue every retained entry is younger than the max age — while
the flush after reconnection (`dequeue`) delivers every queued entry regardless
of its age. -/
theorem queue_aging_enqueue_only (now : Int) (m : Msg) (t : Option BrowserLocation)
    (q : MessageQueue) (port : Port) :
    (∀ e ∈ (enqueue now m t q).queue, now - e.timestamp < maxMessageAge) ∧
    (processQueuedMessages (fun _ => true) now (some port) q).1 =
      q.queue.map buildQueuedSend := by
  constructor
  · intro e he
    unfold enqueue at he
    rcases List.mem_append.1 he with h | h
    · have hclean : e ∈ (cleanup now q).queue := by
        by_cases hl : (cleanup now q).queue.length ≥ maxQueueSize
        · rw [if_pos hl] at h
          exact List.mem_of_mem_tail h
        · rw [if_neg hl] at h
          exact h
      unfold cleanup at hclean
      rw [List.mem_filter] at hclean
      exact of_decide_eq_true hclean.2
    · simp only [List.mem_singleton] at h
      rw [h]
      simp only [sub_self]
      decide
  · by_cases hemp : queueIsEmpty q = true
    · have hq : q.queue = [] := by simpa [queueIsEmpty] using hemp
      simp [processQueuedMessages, hemp, hq]
    · unfold processQueuedMessages
      rw [if_neg (by simp [hemp])]
      unfold dequeue
      rw [show (MessageQueue.empty : MessageQueue) = ⟨[]⟩ from rfl]
      rw [flush_foldl_spec (fun _ => true) now q.queue [] [] (by simp)
        (by simp [maxQueueSize])]
      simp

/-- Witness for C4 (amended), at the stale single-entry queue. -/
theorem queue_aging_enqueue_only_witness :
    (∀ e ∈ (enqueue 400000 msgA none qStale).queue,
      (400000 : Int) - e.timestamp < maxMessageAge) ∧
    (processQueuedMessages (fun _ => true) 400000 (some portA) qStale).1 =
      qStale.queue.map buildQueuedSend :=
  queue_aging_enqueue_only 400000 msgA none qStale portA

/-! ## C6: queue bounding -/

/-- C6: the capacity invariant is preserved by every enqueue, and an enqueue
into a full queue of unexpired entries drops exactly the oldest entry and
retains the newly enqueued one at the back. -/
theorem queue_bounding (now : Int) (m : Msg) (t : Option BrowserLocation)
    (q : MessageQueue) :
    (q.queue.length ≤ maxQueueSize → (enqueue now m t q).queue.length ≤ maxQueueSize) ∧
    (q.queue.length = maxQueueSize → (∀ e ∈ q.queue, now - e.timestamp < maxMessageAge) →
      (enqueue now m t q).queue = q.queue.tail ++ [⟨m, t, now⟩]) := by
  constructor
  · intro hle
    simp only [enqueue]
    have hclean : (cleanup now q).queue.length ≤ q.queue.length := by
      unfold cleanup
      exact List.length_filter_le _ _
    by_cases hfull : (cleanup now q).queue.length ≥ maxQueueSize
    · rw [if_pos hfull]
      simp only [List.length_append, List.length_tail, List.length_singleton]
      unfold maxQueueSize at *
      omega
    · rw [if_neg hfull]
      simp only [List.length_append, List.length_singleton]
      unfold maxQueueSize at *
      omega
  · intro hfull hfresh
    simp only [enqueue]
    rw [cleanup_eq_self now q hfresh]
    rw [if_pos (by omega : q.queue.length ≥ maxQueueSize)]

/-- Witness for C6: enqueueing into the full 1000-entry queue drops the head,
keeps the new entry last and stays at capacity. -/
theorem queue_bounding_witness :
    qFull.queue.length = maxQueueSize ∧
    (∀ e ∈ qFull.queue, (1 : Int) - e.timestamp < maxMessageAge) ∧
    (enqueue 1 msgA none qFull).queue = qFull.queue.tail ++ [⟨msgA, none, 1⟩] ∧
    (enqueue 1 msgA none qFull).queue.length ≤ maxQueueSize := by
  have hlen : qFull.queue.length = maxQueueSize := by
    simp [qFull]
  have hfresh : ∀ e ∈ qFull.queue, (1 : Int) - e.timestamp < maxMessageAge := by
    intro e he
    simp only [qFull] at he
    rw [List.eq_of_mem_replicate he]
    decide
  have h := queue_bounding 1 msgA none qFull
  exact ⟨hlen, hfresh, h.2 hlen hfresh, h.1 (le_of_eq hlen)⟩

/-! ## C7: handshake rejection behaviour -/

/-- C7 counterexample: when the admission watchdog expires on a channel that
never completed `init`, the channel is closed but no `error` system message is
sent on it — refuting the claim that the timeout path also sends a typed error. -/
theorem watchdog_no_error_counterexample :
    (watchdogExpire AgentManager.empty portA).errorSent = none ∧
    (watchdogExpire AgentManager.empty portA).disconnected = true := by
  decide

/-- C7 (amended): a malformed `porter-init` (missing info or connection id)
causes a typed `porter-error` message followed by a disconnect, while watchdog
expiry on a channel that was never registered closes the channel without sending any error. -/
theorem handshake_rejection_behavior (m : Manifest) (now : Int) (freshId : String)
    (st : AgentManager) (port : Port) (payload : InitPayload)
    (hmal : ¬ (truthyInfo payload.info = true ∧ truthyStr payload.connectionId = true)) :
    (handleInitMessage m now freshId st port "porter-init" payload).1 =
      ⟨some .invalidContext, false, true⟩ ∧
    (hasPort st port = false → watchdogExpire st port = ⟨none, false, true⟩) := by
  constructor
  · unfold handleInitMessage
    rw [if_neg (by simp)]
    rw [if_pos hmal]
  · intro hnp
    unfold watchdogExpire
    rw [if_neg (by simp [hnp])]

/-- Witness for C7 (amended): an init with neither info nor connection id gets
`porter-error` + disconnect; watchdog expiry on the empty registry just
disconnects. -/
theorem handshake_rejection_behavior_witness :
    ¬ (truthyInfo (none : Option AgentInfo) = true ∧
        truthyStr (none : Option String) = true) ∧
    (handleInitMessage defaultManifest 0 "u1" AgentManager.empty portA
        "porter-init" ⟨none, none⟩).1 = ⟨some .invalidContext, false, true⟩ ∧
    hasPort AgentManager.empty portA = false ∧
    watchdogExpire AgentManager.empty portA = ⟨none, false, true⟩ := by
  have h := handshake_rejection_behavior defaultManifest 0 "u1" AgentManager.empty
    portA ⟨none, none⟩ (by decide)
  exact ⟨by decide, h.1, by decide, h.2 (by decide)⟩

end Porter
